import Mathlib

/-!
Verification of the GHMC chemical-waste management application.

This file gives a shallow embedding of the parts of the repository that the
spec's claims are about:

* `backend/src/services/inward.service.js` (`InwardService`): pagination,
  entry CRUD, lot-number uniqueness checks, payment no-op;
* `backend/src/controllers/inward.controller.js` and
  `companies.controller.js`: JSON response envelopes and role-based
  stripping of material rates;
* `frontend .../CreateInvoiceModal.tsx`: invoice totals arithmetic, the
  append/merge workflow, duplicate-free id/manifest lists, and the
  entry-selection gating.

JavaScript numbers are modelled by `Rat` (the arithmetic the claims state is
exact there), missing/`undefined` values by `Option`, the database by lists
of records, and thrown service errors by `Except` results paired with the
database state, which is returned unchanged on the error paths (the source
throws before reaching any write).
-/

/-! ## Data model -/

/-- Service-level errors thrown by the backend services
(`utils/errors.js`: `NotFoundError`, `ValidationError`). -/
inductive SvcError where
  | notFound (resource : String)
  | validation (message : String)
deriving Repr, DecidableEq

/-- Row of the `InwardEntry` table, with the fields the inward service
reads and writes.  `invoiceId` is the link field to `Invoice`. -/
structure InwardEntry where
  id : String
  srNo : Nat
  date : Int
  lotNo : Option String
  companyId : String
  manifestNo : String
  vehicleNo : Option String
  wasteName : String
  rate : Option Rat
  category : Option String
  quantity : Rat
  unit : String
  month : Option String
  invoiceId : Option String
deriving Repr, DecidableEq

/-- Price-list material of a company (`materials` relation).  `rate` is the
field the controllers strip for non-admin users; `none` models an absent
field in the JSON. -/
structure CoMaterial where
  id : String
  materialName : String
  rate : Option Rat
  unit : String
  description : String
deriving Repr, DecidableEq

/-- Row of the `Company` table.  `materials` is `none` when the relation was
not included in the query (JS `company.materials` undefined). -/
structure Company where
  id : String
  name : String
  gstNumber : String
  address : String
  materials : Option (List CoMaterial)
deriving Repr, DecidableEq

/-- Database state seen by the inward service. -/
structure Db where
  entries : List InwardEntry
  companies : List Company
deriving Repr, DecidableEq

/-! ## JavaScript helpers -/

/-- JavaScript `a || b` on strings: the left operand unless it is empty. -/
def jsOrStr (a b : String) : String := if a == "" then b else a

/-- JavaScript truthiness failure of an optional string: missing or empty. -/
def strFalsy (s : Option String) : Bool := s.getD "" == ""

/-- JavaScript truthiness failure of an optional number: missing or zero. -/
def ratFalsy (q : Option Rat) : Bool := q.getD 0 == 0

/-- JavaScript truthiness failure of an optional natural: missing or zero. -/
def natFalsy (n : Option Nat) : Bool := n.getD 0 == 0

/-- Whitespace test used by `trimStr`. -/
def isWs (c : Char) : Bool := c == ' ' || c == '\t' || c == '\n' || c == '\r'

/-- JavaScript `String.prototype.trim`: strip leading and trailing
whitespace (implemented on the character list so that it evaluates by
kernel reduction). -/
def trimStr (s : String) : String :=
  String.mk (((s.toList.dropWhile isWs).reverse.dropWhile isWs).reverse)

/-- JavaScript `x?.trim() || null` on an optional string. -/
def jsTrimOrNull (s : Option String) : Option String :=
  match s with
  | none => none
  | some v => if trimStr v == "" then none else some (trimStr v)

/-! ## InwardService.getAllEntries -/

/-- Query options of `InwardService.getAllEntries` (defaults as in the
source: `page = 1`, `limit = 20`, empty search/company filters). -/
structure ListOptions where
  page : Nat := 1
  limit : Nat := 20
  search : String := ""
  companyId : String := ""
  startDate : Option Int := none
  endDate : Option Int := none
deriving Repr, DecidableEq

/-- Case-insensitive substring test, modelling Prisma
`contains, mode: insensitive`. -/
def containsCI (hay needle : String) : Bool :=
  let h := hay.toLower.toList
  let n := needle.toLower.toList
  (List.range (h.length + 1)).any (fun i => n.isPrefixOf (h.drop i))

/-- The `where` clause built by `getAllEntries`: an OR of substring matches
over `manifestNo` / `lotNo` / `wasteName` when `search` is nonempty, an
equality filter on `companyId` when given, and a `gte`/`lte` date range. -/
def matchesWhere (o : ListOptions) (e : InwardEntry) : Bool :=
  (o.search == ""
      || containsCI e.manifestNo o.search
      || (match e.lotNo with
          | some l => containsCI l o.search
          | none => false)
      || containsCI e.wasteName o.search)
    && (o.companyId == "" || e.companyId == o.companyId)
    && (match o.startDate with
        | some d => decide (d ≤ e.date)
        | none => true)
    && (match o.endDate with
        | some d => decide (e.date ≤ d)
        | none => true)

/-- Pagination object returned by `getAllEntries`.  `totalPages` is computed
by `Math.ceil(total / take)` in the source, so it is embedded as the exact
rational ceiling. -/
structure Pagination where
  page : Nat
  limit : Nat
  total : Nat
  totalPages : Int
  hasNext : Bool
  hasPrev : Bool
deriving Repr, DecidableEq

/-- Result shape of `InwardService.getAllEntries`. -/
structure GetAllResult where
  entries : List InwardEntry
  pagination : Pagination
deriving Repr, DecidableEq

/-- InwardService.getAllEntries: filters the table by the `where` clause,
pages with `skip = (page-1)*limit` / `take = limit`, and returns the page
together with the pagination object built from the total matching count.
(The dynamic `orderBy` only permutes the filtered list and is irrelevant to
every field of the pagination object; the page is taken in table order.) -/
def getAllEntries (db : List InwardEntry) (o : ListOptions) : GetAllResult :=
  let skip := (o.page - 1) * o.limit
  let take := o.limit
  let filtered := db.filter (matchesWhere o)
  let total := filtered.length
  { entries := (filtered.drop skip).take take
    pagination :=
      { page := o.page
        limit := take
        total := total
        totalPages := ⌈(total : ℚ) / (take : ℚ)⌉
        hasNext := decide (o.page * take < total)
        hasPrev := decide (1 < o.page) } }

/-! ## InwardService entry CRUD -/

/-- Request body of `createEntry`.  `none` models a missing field. -/
structure CreateInput where
  date : Option Int := none
  companyId : Option String := none
  manifestNo : Option String := none
  vehicleNo : Option String := none
  wasteName : Option String := none
  rate : Option Rat := none
  category : Option String := none
  quantity : Option Rat := none
  unit : Option String := none
  month : Option String := none
  lotNo : Option String := none
  srNo : Option Nat := none
deriving Repr, DecidableEq

/-- The required-field check of `createEntry`:
`!date || !companyId || !manifestNo || !wasteName || !quantity || !unit`. -/
def missingRequired (i : CreateInput) : Bool :=
  i.date.isNone || strFalsy i.companyId || strFalsy i.manifestNo
    || strFalsy i.wasteName || ratFalsy i.quantity || strFalsy i.unit

/-- InwardService.getNextSrNo: one more than the largest stored `srNo`
(`findFirst orderBy srNo desc`), with the source's truthiness fallback
to `1`. -/
def getNextSrNo (db : Db) : Nat :=
  match (db.entries.map (fun e => e.srNo)).max? with
  | none => 1
  | some m => if m == 0 then 1 else m + 1

/-- The lot number actually used by `createEntry`:
`lotNo || (await this.generateLotNo())`.  The generated candidate is passed
in as `genLot`, since `generateLotNo` depends on the clock. -/
def finalLotNo (i : CreateInput) (genLot : String) : String :=
  jsOrStr (i.lotNo.getD "") genLot

/-- InwardService.createEntry: validates required fields, requires the
company to exist, generates `srNo`/`lotNo` fallbacks, rejects duplicate lot
numbers, and appends the new row.  `genLot` is the generated lot-number
candidate and `newId` the id assigned by the database.  The state is
returned unchanged on every error path. -/
def createEntry (db : Db) (i : CreateInput) (genLot : String) (newId : String) :
    Except SvcError InwardEntry × Db :=
  if missingRequired i then
    (.error (.validation
      "Date, company, manifest number, waste name, quantity, and unit are required"), db)
  else
    match db.companies.find? (fun c => c.id == i.companyId.getD "") with
    | none => (.error (.notFound "Company"), db)
    | some _ =>
      let srNo := if natFalsy i.srNo then getNextSrNo db else i.srNo.getD 0
      let lot := finalLotNo i genLot
      if lot != "" && db.entries.any (fun e => e.lotNo == some lot) then
        (.error (.validation "Lot number already exists"), db)
      else
        let entry : InwardEntry :=
          { id := newId
            srNo := srNo
            date := i.date.getD 0
            lotNo := some lot
            companyId := i.companyId.getD ""
            manifestNo := trimStr (i.manifestNo.getD "")
            vehicleNo := jsTrimOrNull i.vehicleNo
            wasteName := trimStr (i.wasteName.getD "")
            rate := if ratFalsy i.rate then none else i.rate
            category := jsTrimOrNull i.category
            quantity := i.quantity.getD 0
            unit := trimStr (i.unit.getD "")
            month := jsTrimOrNull i.month
            invoiceId := none }
        (.ok entry, { db with entries := db.entries ++ [entry] })

/-- InwardService.getEntryById: the stored row, or a not-found error. -/
def getEntryById (db : Db) (entryId : String) : Except SvcError InwardEntry :=
  match db.entries.find? (fun e => e.id == entryId) with
  | none => .error (.notFound "Inward entry")
  | some e => .ok e

/-- Request body of `updateEntry`.  The outer `Option` distinguishes an
absent field (`undefined`, keep the stored value) from a provided one; the
inner `Option`, where present, models an explicit `null`. -/
structure UpdateInput where
  date : Option Int := none
  companyId : Option String := none
  manifestNo : Option String := none
  vehicleNo : Option (Option String) := none
  wasteName : Option String := none
  rate : Option (Option Rat) := none
  category : Option (Option String) := none
  quantity : Option Rat := none
  unit : Option String := none
  month : Option (Option String) := none
  lotNo : Option (Option String) := none
deriving Repr, DecidableEq

/-- The conditional spread of `updateEntry`: each field present in the body
overwrites the stored one, with the source's trimming and null fallbacks. -/
def applyUpdate (u : UpdateInput) (e : InwardEntry) : InwardEntry :=
  { e with
    date := u.date.getD e.date
    companyId := u.companyId.getD e.companyId
    manifestNo := (u.manifestNo.map trimStr).getD e.manifestNo
    vehicleNo :=
      match u.vehicleNo with
      | none => e.vehicleNo
      | some v => jsTrimOrNull v
    wasteName := (u.wasteName.map trimStr).getD e.wasteName
    rate :=
      match u.rate with
      | none => e.rate
      | some r => if r.getD 0 == 0 then none else r
    category :=
      match u.category with
      | none => e.category
      | some c => jsTrimOrNull c
    quantity := u.quantity.getD e.quantity
    unit := (u.unit.map trimStr).getD e.unit
    month :=
      match u.month with
      | none => e.month
      | some m => jsTrimOrNull m
    lotNo :=
      match u.lotNo with
      | none => e.lotNo
      | some l => jsTrimOrNull l }

/-- The lot number carried by an update body when it is truthy
(`if (updateData.lotNo)`), else the empty string. -/
def updateLotNo (u : UpdateInput) : String := (u.lotNo.getD none).getD ""

/-- InwardService.updateEntry: requires the row to exist, rejects a truthy
new lot number already carried by a different row (`findFirst` over
`lotNo = updateData.lotNo, id ≠ entryId`), then applies the update.  The
state is returned unchanged on every error path. -/
def updateEntry (db : Db) (entryId : String) (u : UpdateInput) :
    Except SvcError InwardEntry × Db :=
  match db.entries.find? (fun e => e.id == entryId) with
  | none => (.error (.notFound "Inward entry"), db)
  | some e0 =>
    if updateLotNo u != "" &&
        db.entries.any (fun e => e.lotNo == some (updateLotNo u) && e.id != entryId) then
      (.error (.validation "Lot number already exists"), db)
    else
      (.ok (applyUpdate u e0),
        { db with
          entries := db.entries.map (fun e => if e.id == entryId then applyUpdate u e else e) })

/-- InwardService.deleteEntry: requires the row to exist, then removes it. -/
def deleteEntry (db : Db) (entryId : String) : Except SvcError Unit × Db :=
  match db.entries.find? (fun e => e.id == entryId) with
  | none => (.error (.notFound "Inward entry"), db)
  | some _ => (.ok (), { db with entries := db.entries.filter (fun e => e.id != entryId) })

/-- Body of `PUT /api/inward/:id/payment`; the service never reads it. -/
structure PaymentData where
  paymentReceived : Option Rat := none
  paymentReceivedOn : Option Int := none
deriving Repr, DecidableEq

/-- InwardService.updatePayment: looks the entry up (not-found error when it
does not exist) and returns it as stored; no write is performed. -/
def updatePayment (db : Db) (entryId : String) (_pay : PaymentData) :
    Except SvcError InwardEntry × Db :=
  match getEntryById db entryId with
  | .error err => (.error err, db)
  | .ok e => (.ok e, db)

/-! ## Invoice form (CreateInvoiceModal) -/

/-- Line of the `materials` array of the create-invoice form
(`CreateInvoiceModal`).  Optional fields are `Option`s, `none` standing for
`undefined`. -/
structure MaterialLine where
  materialName : String
  rate : Option Rat := none
  unit : Option String := none
  quantity : Option Rat := none
  amount : Option Rat := none
  manifestNo : Option String := none
  description : String := ""
deriving Repr, DecidableEq

/-- State of the create-invoice form (`formData` plus the append-mode
flags), restricted to the fields the claims are about. -/
structure InvoiceForm where
  date : String := ""
  companyId : String := ""
  transporterId : String := ""
  customerName : String := ""
  materials : List MaterialLine := []
  manifestNos : List String := []
  inwardEntryIds : List String := []
  outwardEntryIds : List String := []
  subtotal : Rat := 0
  cgstRate : Option Rat := none
  sgstRate : Option Rat := none
  gstNo : String := ""
  billedTo : String := ""
  shippedTo : String := ""
  description : String := ""
  additionalCharges : Rat := 0
  additionalChargesDescription : String := ""
  applyGst : Bool := true
deriving Repr, DecidableEq

/-- Sum of the `amount` fields of the form's materials
(`materials.reduce((sum, m) => sum + (m.amount || 0), 0)`). -/
def sumAmounts (ms : List MaterialLine) : Rat :=
  ms.foldl (fun sum m => sum + m.amount.getD 0) 0

/-- The displayed subtotal:
`formData.materials.reduce(...) || formData.subtotal` — the materials sum,
falling back to the manually entered subtotal when that sum is `0` (JS
falsy). -/
def formSubtotal (f : InvoiceForm) : Rat :=
  if sumAmounts f.materials == 0 then f.subtotal else sumAmounts f.materials

/-- Tax base: `subtotal + additionalCharges`. -/
def baseForTax (f : InvoiceForm) : Rat := formSubtotal f + f.additionalCharges

/-- Effective CGST rate:
`applyGst ? (cgstRate !== undefined ? cgstRate : 9) : 0`. -/
def cgstRateValue (f : InvoiceForm) : Rat :=
  if f.applyGst then f.cgstRate.getD 9 else 0

/-- Effective SGST rate, symmetric to `cgstRateValue`. -/
def sgstRateValue (f : InvoiceForm) : Rat :=
  if f.applyGst then f.sgstRate.getD 9 else 0

/-- Displayed CGST amount: `(baseForTax * cgstRateValue) / 100`. -/
def cgstAmount (f : InvoiceForm) : Rat := baseForTax f * cgstRateValue f / 100

/-- Displayed SGST amount: `(baseForTax * sgstRateValue) / 100`. -/
def sgstAmount (f : InvoiceForm) : Rat := baseForTax f * sgstRateValue f / 100

/-- Displayed grand total: `baseForTax + cgst + sgst`. -/
def grandTotal (f : InvoiceForm) : Rat := baseForTax f + cgstAmount f + sgstAmount f

/-! ## Inward controller (inward.controller.js) -/

/-- Body nesting of a single-entry response: `data: { entry }`. -/
structure EntryBody where
  entry : InwardEntry
deriving Repr, DecidableEq

/-- JSON envelope of a single-entry inward response together with the HTTP
status code set by the controller. -/
structure EntryResponse where
  status : Nat
  success : Bool
  data : EntryBody
  message : String
deriving Repr, DecidableEq

/-- JSON envelope of the list response of `GET /api/inward`: entries under
`data` and the pagination object alongside. -/
structure ListResponse where
  status : Nat
  success : Bool
  data : List InwardEntry
  pagination : Pagination
  message : String
deriving Repr, DecidableEq

/-- InwardController.createEntry: `201` with
`{success: true, data: {entry}, message}` on success; errors are passed to
the error middleware (`next(error)`). -/
def createEntryController (db : Db) (i : CreateInput) (genLot newId : String) :
    Except SvcError EntryResponse × Db :=
  match createEntry db i genLot newId with
  | (.ok e, db2) =>
    (.ok { status := 201, success := true, data := { entry := e },
           message := "Inward entry created successfully" }, db2)
  | (.error err, db2) => (.error err, db2)

/-- InwardController.getAllEntries: `200` with
`{success: true, data: entries, pagination, message}`. -/
def getAllEntriesController (db : List InwardEntry) (o : ListOptions) : ListResponse :=
  let r := getAllEntries db o
  { status := 200, success := true, data := r.entries, pagination := r.pagination
    message := "Inward entries retrieved successfully" }

/-- InwardController.updatePayment: `200` with
`message: 'Payment updated successfully'` on success. -/
def updatePaymentController (db : Db) (entryId : String) (pay : PaymentData) :
    Except SvcError EntryResponse × Db :=
  match updatePayment db entryId pay with
  | (.ok e, db2) =>
    (.ok { status := 200, success := true, data := { entry := e },
           message := "Payment updated successfully" }, db2)
  | (.error err, db2) => (.error err, db2)

/-! ## Invoices and the append/merge workflow (CreateInvoiceModal) -/

/-- Invoice record as the frontend sees it (`invoicesService`), with the
relations `invoiceMaterials` / `invoiceManifests` / `inwardEntries` (the
latter two reduced to the projections the modal takes: manifest numbers and
entry ids).  `ty` models the JS `type` field. -/
structure Invoice where
  id : String
  invoiceNo : String
  companyId : Option String
  ty : String
  status : String
  date : Int
  subtotal : Rat
  cgst : Rat
  sgst : Rat
  grandTotal : Rat
  additionalCharges : Rat
  additionalChargesDescription : String
  paymentReceived : Rat
  paymentReceivedOn : Option Int
  gstNo : String
  billedTo : String
  shippedTo : String
  description : String
  customerName : String
  invoiceMaterials : List MaterialLine
  invoiceManifests : List String
  inwardEntries : List String
deriving Repr, DecidableEq

/-- Insert into a list kept descending by `key`. -/
def insertDescBy {α : Type} (key : α → Int) (x : α) : List α → List α
  | [] => [x]
  | y :: ys => if key y ≤ key x then x :: y :: ys else y :: insertDescBy key x ys

/-- Insertion sort, descending by `key`. -/
def sortDescBy {α : Type} (key : α → Int) : List α → List α
  | [] => []
  | x :: xs => insertDescBy key x (sortDescBy key xs)

/-- Modelled from the spec: the invoices list endpoint
(`invoicesService.getInvoices`, whose backend service is not part of the
sources) follows the repository's standard pagination — it filters by
`companyId` and `type`, sorts descending (`sortOrder: 'desc'` on the date),
and returns at most `limit` invoices. -/
def getInvoices (invs : List Invoice) (companyId ty : String) (limit : Nat) : List Invoice :=
  (sortDescBy (fun i => i.date)
    (invs.filter (fun i => i.companyId == some companyId && i.ty == ty))).take limit

/-- The `checkExistingInvoice` effect of `CreateInvoiceModal`: for an Inward
invoice with a company selected, fetch (at most) 5 recent Inward invoices of
the company and offer appending to the first whose `status` is not
`'paid'`. -/
def checkExistingInvoice (invs : List Invoice) (ty companyId : String) : Option Invoice :=
  if ty == "Inward" && companyId != "" then
    (getInvoices invs companyId "Inward" 5).find? (fun inv => inv.status != "paid")
  else none

/-- The mapping `handleAppendConfirm` applies to each stored invoice
material (`rate ? Number(rate) : 0`, `unit || ''`, …). -/
def mapExistingMaterial (m : MaterialLine) : MaterialLine :=
  { materialName := m.materialName
    rate := some (m.rate.getD 0)
    unit := some (m.unit.getD "")
    quantity := some (m.quantity.getD 0)
    amount := some (m.amount.getD 0)
    manifestNo := some (m.manifestNo.getD "")
    description := m.description }

/-- One step of `jsSetDedup`: emit elements in order, skipping any already
seen. -/
def jsSetDedupAux (seen : List String) : List String → List String
  | [] => []
  | x :: xs => if x ∈ seen then jsSetDedupAux seen xs else x :: jsSetDedupAux (x :: seen) xs

/-- JavaScript `[...new Set(list)]`: duplicates removed, first occurrences
kept in order. -/
def jsSetDedup (l : List String) : List String := jsSetDedupAux [] l

/-- The `handleAppendConfirm` state update: prepend the existing invoice's
materials, union in its manifest numbers and entry ids (via `new Set`), and
take over its header/tax/charges fields with the source's `||` fallbacks. -/
def handleAppendConfirm (full : Invoice) (prev : InvoiceForm) : InvoiceForm :=
  let existingMaterials := full.invoiceMaterials.map mapExistingMaterial
  { prev with
    materials := existingMaterials ++ prev.materials
    manifestNos := jsSetDedup (full.invoiceManifests ++ prev.manifestNos)
    inwardEntryIds := jsSetDedup (full.inwardEntries ++ prev.inwardEntryIds)
    gstNo := jsOrStr full.gstNo prev.gstNo
    billedTo := jsOrStr full.billedTo prev.billedTo
    shippedTo := jsOrStr full.shippedTo prev.shippedTo
    description := jsOrStr full.description prev.description
    cgstRate := if full.cgst == 0 then prev.cgstRate
      else some (full.cgst / full.subtotal * 100)
    sgstRate := if full.sgst == 0 then prev.sgstRate
      else some (full.sgst / full.subtotal * 100)
    customerName := jsOrStr full.customerName prev.customerName
    additionalCharges := if full.additionalCharges == 0 then 0 else full.additionalCharges
    additionalChargesDescription := jsOrStr full.additionalChargesDescription "" }

/-- Remove the first element satisfying `p`
(`findIndex` + `splice(index, 1)`). -/
def removeFirst {α : Type} (p : α → Bool) : List α → List α
  | [] => []
  | x :: xs => if p x then xs else x :: removeFirst p xs

/-- The material line the entry checkbox pushes when an inward entry is
selected. -/
def entryMaterial (e : InwardEntry) : MaterialLine :=
  { materialName := e.wasteName
    rate := some (e.rate.getD 0)
    unit := some e.unit
    quantity := some e.quantity
    amount := some (e.quantity * e.rate.getD 0)
    manifestNo := some e.manifestNo
    description := "" }

/-- The checkbox `onChange` handler for an inward entry: on check, push the
entry id, its material line and (if new) its manifest number; on uncheck,
drop the id, the first matching material, and the manifest number when no
remaining material uses it. -/
def toggleEntry (f : InvoiceForm) (e : InwardEntry) (checked : Bool) : InvoiceForm :=
  if checked then
    { f with
      inwardEntryIds := f.inwardEntryIds ++ [e.id]
      materials := f.materials ++ [entryMaterial e]
      manifestNos :=
        if e.manifestNo != "" && !(f.manifestNos.contains e.manifestNo) then
          f.manifestNos ++ [e.manifestNo]
        else f.manifestNos }
  else
    let newMaterials := removeFirst
      (fun m => m.manifestNo == some e.manifestNo && m.materialName == e.wasteName)
      f.materials
    let isManifestUsed := newMaterials.any (fun m => m.manifestNo == some e.manifestNo)
    { f with
      inwardEntryIds := f.inwardEntryIds.filter (fun x => x != e.id)
      materials := newMaterials
      manifestNos :=
        if isManifestUsed then f.manifestNos
        else f.manifestNos.filter (fun m => m != e.manifestNo) }

/-- A user click on the checkbox: the browser reports `checked` as the
negation of the current state, which for the controlled input is membership
of the entry id in the selection. -/
def clickEntry (f : InvoiceForm) (e : InwardEntry) : InvoiceForm :=
  toggleEntry f e (!(f.inwardEntryIds.contains e.id))

/-- `isLinkedToCurrent` of the entry row:
`isAppendMode && existingInvoice && entry.invoiceId === existingInvoice.id`. -/
def isLinkedToCurrent (appendMode : Bool) (existing : Option Invoice) (e : InwardEntry) : Bool :=
  appendMode &&
    (match existing with
     | some inv => e.invoiceId == some inv.id
     | none => false)

/-- `isDisabled` of the entry checkbox: `isInvoiced && !isLinkedToCurrent`
(entry ids stored in the database are never the empty string, so JS
truthiness of `entry.invoiceId` is presence). -/
def isDisabledEntry (appendMode : Bool) (existing : Option Invoice) (e : InwardEntry) : Bool :=
  e.invoiceId.isSome && !(isLinkedToCurrent appendMode existing e)

/-- A click in the rendered list: a disabled checkbox receives no events,
so the form is unchanged; otherwise the toggle runs. -/
def uiClick (appendMode : Bool) (existing : Option Invoice) (f : InvoiceForm)
    (e : InwardEntry) : InvoiceForm :=
  if isDisabledEntry appendMode existing e then f else clickEntry f e

/-- Outward entry, reduced to the fields the picker shows. -/
structure OutwardEntry where
  id : String
  manifestNo : String
  cementCompany : String
  quantity : Rat
  unit : String
  invoiceId : Option String
deriving Repr, DecidableEq

/-- The outward-entry picker options:
`outwardEntries.filter(e => !e.invoiceId)`. -/
def outwardOptions (l : List OutwardEntry) : List OutwardEntry :=
  l.filter (fun e => e.invoiceId.isNone)

/-- Payload of the append-mode submission (`updateInvoice` body). -/
structure UpdatePayload where
  date : String
  customerName : String
  materials : List MaterialLine
  manifestNos : List String
  subtotal : Rat
  cgstRate : Option Rat
  sgstRate : Option Rat
  gstNo : String
  billedTo : String
  shippedTo : String
  description : String
  additionalCharges : Rat
  additionalChargesDescription : String
  inwardEntryIds : List String
  paymentReceived : Rat
  paymentReceivedOn : Option String
deriving Repr, DecidableEq

/-- The append-mode branch of `handleSubmit`: manifest numbers are
deduplicated (`[...new Set(formData.manifestNos)]`), entry ids are passed
through, the subtotal is the displayed one, and the GST rates are zeroed
when `applyGst` is off. -/
def buildUpdatePayload (f : InvoiceForm) (isPaymentReceived : Bool)
    (paymentAmount : Rat) (paymentDate : String) : UpdatePayload :=
  { date := f.date
    customerName := f.customerName
    materials := f.materials
    manifestNos := jsSetDedup f.manifestNos
    subtotal := formSubtotal f
    cgstRate := if f.applyGst then f.cgstRate else some 0
    sgstRate := if f.applyGst then f.sgstRate else some 0
    gstNo := f.gstNo
    billedTo := f.billedTo
    shippedTo := f.shippedTo
    description := f.description
    additionalCharges := f.additionalCharges
    additionalChargesDescription := f.additionalChargesDescription
    inwardEntryIds := f.inwardEntryIds
    paymentReceived := if isPaymentReceived then paymentAmount else 0
    paymentReceivedOn := if isPaymentReceived then some paymentDate else none }

/-! ## Companies controller (companies.controller.js) -/

/-- Removal of the `rate` key from a material (`const { rate, ...rest }`). -/
def stripRate (m : CoMaterial) : CoMaterial := { m with rate := none }

/-- CompaniesController.getAllCompanies response body: each company is
returned unchanged for an admin (or when it carries no materials), and with
every material's `rate` removed otherwise. -/
def getAllCompaniesResp (role : String) (cs : List Company) : List Company :=
  cs.map (fun c =>
    if role == "admin" || c.materials.isNone then c
    else { c with materials := c.materials.map (fun ms => ms.map stripRate) })

/-- CompaniesController.getCompanyById response body for a found company. -/
def getCompanyByIdResp (role : String) (c : Company) : Company :=
  if role != "admin" && c.materials.isSome then
    { c with materials := c.materials.map (fun ms => ms.map stripRate) }
  else c

/-- CompaniesController.getCompanyMaterials response body. -/
def getCompanyMaterialsResp (role : String) (ms : List CoMaterial) : List CoMaterial :=
  ms.map (fun m => if role == "admin" then m else stripRate m)

/-- Specification-side description of a full strip: the company with every
material's rate removed (used to compare the non-admin run against the
admin run). -/
def stripCompanyRates (c : Company) : Company :=
  if c.materials.isNone then c
  else { c with materials := c.materials.map (fun ms => ms.map stripRate) }

/-! ## Example inputs for witnesses -/

/-- Example inward entry used by concrete witnesses below. -/
def exEntry (i : Nat) (cid : String) : InwardEntry :=
  { id := toString i
    srNo := i
    date := (i : Int)
    lotNo := some ("LOT-202501-000" ++ toString i)
    companyId := cid
    manifestNo := "MAN-" ++ toString i
    vehicleNo := none
    wasteName := "solvent"
    rate := some 10
    category := none
    quantity := 5
    unit := "KG"
    month := none
    invoiceId := none }

/-- Example entry table used by concrete witnesses below. -/
def exDb : List InwardEntry := [exEntry 1 "c1", exEntry 2 "c1", exEntry 3 "c2"]

/-- Example list query used by concrete witnesses below. -/
def exOpts : ListOptions := { page := 1, limit := 2 }

/-- Example form used by concrete witnesses below. -/
def exForm : InvoiceForm :=
  { materials := [{ materialName := "solvent", rate := some 10,
                    quantity := some 5, amount := some 50 }]
    additionalCharges := 7
    cgstRate := some 9
    sgstRate := some 9
    applyGst := true }

/-- Example company table used by concrete witnesses below. -/
def exCompany : Company :=
  { id := "c1", name := "Acme", gstNumber := "GST1", address := "Pune"
    materials := some [{ id := "m1", materialName := "solvent", rate := some 12,
                         unit := "KG", description := "" }] }

/-- Example database used by concrete witnesses below. -/
def exFullDb : Db := { entries := exDb, companies := [exCompany] }

/-- Example well-formed create request used by concrete witnesses below. -/
def exCreateInput : CreateInput :=
  { date := some 100, companyId := some "c1", manifestNo := some "MAN-9"
    wasteName := some "acid", quantity := some 2, unit := some "KG"
    lotNo := some "LOT-202502-0001" }

/-- Example create request that reuses an existing lot number. -/
def exDupCreateInput : CreateInput :=
  { exCreateInput with lotNo := some "LOT-202501-0001" }

/-- Example update request that moves to an occupied lot number. -/
def exDupUpdateInput : UpdateInput := { lotNo := some (some "LOT-202501-0002") }

/-- The entry `createEntry` builds from `exCreateInput` (srNo falls back to
`getNextSrNo exFullDb = 4`). -/
def exCreatedEntry : InwardEntry :=
  { id := "id9", srNo := 4, date := 100, lotNo := some "LOT-202502-0001"
    companyId := "c1", manifestNo := "MAN-9", vehicleNo := none
    wasteName := "acid", rate := none, category := none, quantity := 2
    unit := "KG", month := none, invoiceId := none }

/-- The database after the example create request succeeds. -/
def exDbAfterCreate : Db :=
  { exFullDb with entries := exFullDb.entries ++ [exCreatedEntry] }

/-- Example invoice of company `c1` used by concrete witnesses below. -/
def exInvoice (i : Nat) (st : String) : Invoice :=
  { id := "inv" ++ toString i
    invoiceNo := "INV-" ++ toString i
    companyId := some "c1"
    ty := "Inward"
    status := st
    date := (i : Int)
    subtotal := 100
    cgst := 9
    sgst := 9
    grandTotal := 118
    additionalCharges := 0
    additionalChargesDescription := ""
    paymentReceived := 0
    paymentReceivedOn := none
    gstNo := "G", billedTo := "B", shippedTo := "S", description := ""
    customerName := "Acme"
    invoiceMaterials := []
    invoiceManifests := []
    inwardEntries := [] }

/-- Six invoices of `c1` where only the oldest is unpaid. -/
def exInvoices : List Invoice :=
  [exInvoice 1 "pending", exInvoice 2 "paid", exInvoice 3 "paid",
   exInvoice 4 "paid", exInvoice 5 "paid", exInvoice 6 "paid"]

/-- A single open invoice of `c1`. -/
def exInvoices2 : List Invoice := [exInvoice 1 "pending"]

/-- Example invoice carrying materials, manifests and entry links. -/
def exFullInvoice : Invoice :=
  { exInvoice 7 "pending" with
    invoiceMaterials := [{ materialName := "solvent", rate := some 10, unit := some "KG",
                           quantity := some 5, amount := some 50,
                           manifestNo := some "MAN-1" }]
    invoiceManifests := ["MAN-1"]
    inwardEntries := ["1"] }

/-- Example form state before the append confirmation, overlapping the
existing invoice on manifest `MAN-1` and entry `1`. -/
def exPrevForm : InvoiceForm :=
  { companyId := "c1"
    manifestNos := ["MAN-1", "MAN-2"]
    inwardEntryIds := ["1", "2"]
    materials := [{ materialName := "acid", amount := some 20 }] }

/-- Example entry already linked to another invoice. -/
def exLinkedEntry : InwardEntry := { exEntry 5 "c1" with invoiceId := some "invX" }

/-- Example company table: one company with a priced material, one with no
materials relation loaded. -/
def exCompanies : List Company :=
  [exCompany,
   { id := "c2", name := "Beta", gstNumber := "", address := "", materials := none }]

/-- The example company table as a non-admin receives it: the rate key
removed from every material. -/
def exStrippedCompanies : List Company :=
  [{ exCompany with
     materials := some [{ id := "m1", materialName := "solvent", rate := none,
                          unit := "KG", description := "" }] },
   { id := "c2", name := "Beta", gstNumber := "", address := "", materials := none }]

/-! ## Theorems -/

/-- Rational ceiling of a quotient of naturals is ceiling division. -/
theorem ceil_natCast_div_eq (a b : ℕ) (hb : 0 < b) :
    ⌈(a : ℚ) / (b : ℚ)⌉ = ((a + b - 1) / b : ℕ) := by
  have hbq : (0 : ℚ) < (b : ℚ) := by exact_mod_cast hb
  have hmod := Nat.div_add_mod (a + b - 1) b
  have hlt : (a + b - 1) % b < b := Nat.mod_lt _ hb
  have h1 : b * ((a + b - 1) / b) < a + b := by omega
  have h2 : a ≤ b * ((a + b - 1) / b) := by omega
  have h1q : (b : ℚ) * (((a + b - 1) / b : ℕ) : ℚ) < (a : ℚ) + (b : ℚ) := by
    exact_mod_cast h1
  have h2q : (a : ℚ) ≤ (b : ℚ) * (((a + b - 1) / b : ℕ) : ℚ) := by
    exact_mod_cast h2
  rw [Int.ceil_eq_iff]
  constructor
  · rw [Int.cast_natCast, lt_div_iff₀ hbq]
    nlinarith [h1q]
  · rw [Int.cast_natCast, div_le_iff₀ hbq]
    nlinarith [h2q]

/-- C1: for every list query of inward entries, with `total` the number of
entries matching the filters and `limit` the page size, the returned
pagination object satisfies `totalPages = ceil(total / limit)` (stated as
the ceiling division of naturals), and its `total` and `limit` fields are
indeed the matching count and the page size. -/
theorem getAllEntries_totalPages (db : List InwardEntry) (o : ListOptions)
    (h : 0 < o.limit) :
    (getAllEntries db o).pagination.total = (db.filter (matchesWhere o)).length ∧
    (getAllEntries db o).pagination.limit = o.limit ∧
    (getAllEntries db o).pagination.totalPages =
      (((db.filter (matchesWhere o)).length + o.limit - 1) / o.limit : ℕ) := by
  refine ⟨rfl, rfl, ?_⟩
  exact ceil_natCast_div_eq _ _ h

theorem getAllEntries_totalPages_witness :
    0 < exOpts.limit ∧
    (getAllEntries exDb exOpts).pagination.totalPages =
      (((exDb.filter (matchesWhere exOpts)).length + exOpts.limit - 1) / exOpts.limit : ℕ) :=
  ⟨by decide, (getAllEntries_totalPages exDb exOpts (by decide)).2.2⟩

/-- C3: for every invoice composed in the create-invoice form, the displayed
grand total equals subtotal + additional charges + CGST + SGST, where
`CGST = (subtotal + additional charges) * cgstRate / 100` and
`SGST = (subtotal + additional charges) * sgstRate / 100`, and both tax
terms are zero when `applyGst` is false. -/
theorem grandTotal_formula (f : InvoiceForm) :
    grandTotal f = formSubtotal f + f.additionalCharges + cgstAmount f + sgstAmount f ∧
    (f.applyGst = true → ∀ r, f.cgstRate = some r →
      cgstAmount f = (formSubtotal f + f.additionalCharges) * r / 100) ∧
    (f.applyGst = true → ∀ r, f.sgstRate = some r →
      sgstAmount f = (formSubtotal f + f.additionalCharges) * r / 100) ∧
    (f.applyGst = false → cgstAmount f = 0 ∧ sgstAmount f = 0) := by
  refine ⟨?_, ?_, ?_, ?_⟩
  · rfl
  · intro hg r hr
    simp [cgstAmount, baseForTax, cgstRateValue, hg, hr]
  · intro hg r hr
    simp [sgstAmount, baseForTax, sgstRateValue, hg, hr]
  · intro hg
    simp [cgstAmount, sgstAmount, cgstRateValue, sgstRateValue, hg]

theorem grandTotal_formula_witness :
    exForm.applyGst = true ∧ exForm.cgstRate = some 9 ∧
    cgstAmount exForm = (formSubtotal exForm + exForm.additionalCharges) * 9 / 100 :=
  ⟨rfl, rfl, (grandTotal_formula exForm).2.1 rfl 9 rfl⟩

/-- C2: lot numbers are unique across inward entries.  `createEntry` fails
with a validation error whenever the provided-or-generated lot number
already belongs to an existing entry, and `updateEntry` fails with a
validation error whenever the new lot number belongs to a different entry;
in both failure cases the database is returned unchanged. -/
theorem lotNo_unique_enforced :
    (∀ (db : Db) (i : CreateInput) (genLot newId : String),
      missingRequired i = false →
      (∃ c ∈ db.companies, c.id = i.companyId.getD "") →
      finalLotNo i genLot ≠ "" →
      (∃ e ∈ db.entries, e.lotNo = some (finalLotNo i genLot)) →
      createEntry db i genLot newId =
        (.error (.validation "Lot number already exists"), db)) ∧
    (∀ (db : Db) (entryId : String) (u : UpdateInput),
      (∃ e ∈ db.entries, e.id = entryId) →
      updateLotNo u ≠ "" →
      (∃ e ∈ db.entries, e.lotNo = some (updateLotNo u) ∧ e.id ≠ entryId) →
      updateEntry db entryId u =
        (.error (.validation "Lot number already exists"), db)) := by
  constructor
  · intro db i genLot newId hmiss hco hlot hdup
    obtain ⟨c, hc, hcid⟩ := hco
    have hfind : (db.companies.find? (fun x => x.id == i.companyId.getD "")).isSome := by
      rw [List.find?_isSome]
      exact ⟨c, hc, by simp [hcid]⟩
    obtain ⟨c2, hc2⟩ := Option.isSome_iff_exists.mp hfind
    obtain ⟨e, he, helot⟩ := hdup
    have hany : db.entries.any (fun e => e.lotNo == some (finalLotNo i genLot)) = true :=
      List.any_eq_true.mpr ⟨e, he, by simp [helot]⟩
    simp only [createEntry, hmiss, Bool.false_eq_true, if_false, hc2]
    rw [if_pos]
    rw [Bool.and_eq_true]
    exact ⟨by simpa using hlot, hany⟩
  · intro db entryId u hex hlot hdup
    obtain ⟨e0, he0, hid0⟩ := hex
    have hfind : (db.entries.find? (fun x => x.id == entryId)).isSome := by
      rw [List.find?_isSome]
      exact ⟨e0, he0, by simp [hid0]⟩
    obtain ⟨e1, he1⟩ := Option.isSome_iff_exists.mp hfind
    obtain ⟨e, he, helot, hne⟩ := hdup
    have hany :
        db.entries.any (fun x => x.lotNo == some (updateLotNo u) && x.id != entryId) = true :=
      List.any_eq_true.mpr ⟨e, he, by simp [helot, hne]⟩
    simp only [updateEntry, he1]
    rw [if_pos]
    rw [Bool.and_eq_true]
    exact ⟨by simpa using hlot, hany⟩

theorem lotNo_unique_enforced_witness :
    missingRequired exDupCreateInput = false ∧
    (∃ e ∈ exFullDb.entries,
      e.lotNo = some (finalLotNo exDupCreateInput "LOT-GEN")) ∧
    createEntry exFullDb exDupCreateInput "LOT-GEN" "id9" =
      (.error (.validation "Lot number already exists"), exFullDb) ∧
    updateEntry exFullDb "1" exDupUpdateInput =
      (.error (.validation "Lot number already exists"), exFullDb) :=
  ⟨by decide, ⟨exEntry 1 "c1", by decide⟩,
    lotNo_unique_enforced.1 exFullDb exDupCreateInput "LOT-GEN" "id9"
      (by decide) ⟨exCompany, by decide⟩ (by decide)
      ⟨exEntry 1 "c1", by decide⟩,
    lotNo_unique_enforced.2 exFullDb "1" exDupUpdateInput
      ⟨exEntry 1 "c1", by decide⟩ (by decide)
      ⟨exEntry 2 "c1", by decide⟩⟩

/-- C6: error classification of the inward service.  `getEntryById` raises
`NotFoundError` exactly when no entry has the given id, `updateEntry` and
`deleteEntry` propagate that error, `createEntry` raises `ValidationError`
when one of date / company / manifest number / waste name / quantity / unit
is missing, and (with the required fields present) `NotFoundError` when the
referenced company does not exist. -/
theorem inward_error_classification :
    (∀ (db : Db) (entryId : String),
      getEntryById db entryId = .error (.notFound "Inward entry") ↔
        ∀ e ∈ db.entries, e.id ≠ entryId) ∧
    (∀ (db : Db) (entryId : String) (u : UpdateInput),
      (∀ e ∈ db.entries, e.id ≠ entryId) →
      updateEntry db entryId u = (.error (.notFound "Inward entry"), db)) ∧
    (∀ (db : Db) (entryId : String),
      (∀ e ∈ db.entries, e.id ≠ entryId) →
      deleteEntry db entryId = (.error (.notFound "Inward entry"), db)) ∧
    (∀ (db : Db) (i : CreateInput) (genLot newId : String),
      (i.date = none ∨ i.companyId = none ∨ i.manifestNo = none ∨
        i.wasteName = none ∨ i.quantity = none ∨ i.unit = none) →
      createEntry db i genLot newId =
        (.error (.validation
          "Date, company, manifest number, waste name, quantity, and unit are required"), db)) ∧
    (∀ (db : Db) (i : CreateInput) (genLot newId : String),
      missingRequired i = false →
      (∀ c ∈ db.companies, c.id ≠ i.companyId.getD "") →
      createEntry db i genLot newId = (.error (.notFound "Company"), db)) := by
  refine ⟨?_, ?_, ?_, ?_, ?_⟩
  · intro db entryId
    cases hfind : db.entries.find? (fun e => e.id == entryId) with
    | none =>
      simp only [getEntryById, hfind]
      have := List.find?_eq_none.mp hfind
      simp only [true_iff]
      intro e he
      have := this e he
      simpa using this
    | some e =>
      simp only [getEntryById, hfind]
      constructor
      · intro h
        exact absurd h (by simp)
      · intro h
        have hmem := List.mem_of_find?_eq_some hfind
        have hp := List.find?_some hfind
        exact absurd (by simpa using hp) (h e hmem)
  · intro db entryId u h
    have hfind : db.entries.find? (fun e => e.id == entryId) = none :=
      List.find?_eq_none.mpr (fun e he => by simp [h e he])
    simp [updateEntry, hfind]
  · intro db entryId h
    have hfind : db.entries.find? (fun e => e.id == entryId) = none :=
      List.find?_eq_none.mpr (fun e he => by simp [h e he])
    simp [deleteEntry, hfind]
  · intro db i genLot newId h
    have hmiss : missingRequired i = true := by
      rcases h with h | h | h | h | h | h <;>
        simp [missingRequired, strFalsy, ratFalsy, h]
    simp [createEntry, hmiss]
  · intro db i genLot newId hmiss hno
    have hfind : db.companies.find? (fun c => c.id == i.companyId.getD "") = none :=
      List.find?_eq_none.mpr (fun c hc => by simp [hno c hc])
    simp [createEntry, hmiss, hfind]

theorem inward_error_classification_witness :
    (∀ e ∈ exFullDb.entries, e.id ≠ "zz") ∧
    getEntryById exFullDb "zz" = .error (.notFound "Inward entry") ∧
    deleteEntry exFullDb "zz" = (.error (.notFound "Inward entry"), exFullDb) ∧
    createEntry exFullDb { exCreateInput with unit := none } "LOT-GEN" "id9" =
      (.error (.validation
        "Date, company, manifest number, waste name, quantity, and unit are required"),
        exFullDb) ∧
    createEntry exFullDb { exCreateInput with companyId := some "nope" } "LOT-GEN" "id9" =
      (.error (.notFound "Company"), exFullDb) :=
  ⟨by decide,
    (inward_error_classification.1 exFullDb "zz").mpr (by decide),
    inward_error_classification.2.2.1 exFullDb "zz" (by decide),
    inward_error_classification.2.2.2.1 exFullDb
      { exCreateInput with unit := none } "LOT-GEN" "id9" (Or.inr (Or.inr (Or.inr
        (Or.inr (Or.inr rfl))))),
    inward_error_classification.2.2.2.2 exFullDb
      { exCreateInput with companyId := some "nope" } "LOT-GEN" "id9"
      (by decide) (by decide)⟩

/-- C7: successful responses use the JSON envelope.  Creating an inward
entry responds with HTTP `201`, `success = true`, the created entry under
`data`, and a message; listing inward entries responds with `200`,
`success = true`, the entries under `data`, and the pagination object. -/
theorem response_envelopes :
    (∀ (db : Db) (i : CreateInput) (genLot newId : String) (e : InwardEntry) (db2 : Db),
      createEntry db i genLot newId = (.ok e, db2) →
      createEntryController db i genLot newId =
        (.ok { status := 201, success := true, data := { entry := e },
               message := "Inward entry created successfully" }, db2)) ∧
    (∀ (db : List InwardEntry) (o : ListOptions),
      (getAllEntriesController db o).status = 200 ∧
      (getAllEntriesController db o).success = true ∧
      (getAllEntriesController db o).data = (getAllEntries db o).entries ∧
      (getAllEntriesController db o).pagination = (getAllEntries db o).pagination ∧
      (getAllEntriesController db o).message = "Inward entries retrieved successfully") := by
  constructor
  · intro db i genLot newId e db2 h
    simp [createEntryController, h]
  · intro db o
    exact ⟨rfl, rfl, rfl, rfl, rfl⟩

theorem response_envelopes_witness :
    ∃ e : InwardEntry, ∃ db2 : Db,
      createEntry exFullDb exCreateInput "LOT-GEN" "id9" = (.ok e, db2) ∧
      createEntryController exFullDb exCreateInput "LOT-GEN" "id9" =
        (.ok { status := 201, success := true, data := { entry := e },
               message := "Inward entry created successfully" }, db2) := by
  refine ⟨exCreatedEntry, exDbAfterCreate, ?_, ?_⟩
  · rfl
  · exact response_envelopes.1 exFullDb exCreateInput "LOT-GEN" "id9"
      exCreatedEntry exDbAfterCreate rfl

/-- C10: `PUT /api/inward/:id/payment` changes no state.  For every request
the service returns the database unchanged and its result is exactly
`getEntryById` (the stored entry, or a not-found error when the id does not
exist), while the controller nevertheless reports
`'Payment updated successfully'` on success. -/
theorem updatePayment_frame :
    ∀ (db : Db) (entryId : String) (pay : PaymentData),
      (updatePayment db entryId pay).2 = db ∧
      (updatePayment db entryId pay).1 = getEntryById db entryId ∧
      (updatePaymentController db entryId pay).2 = db ∧
      (∀ e, getEntryById db entryId = .ok e →
        (updatePaymentController db entryId pay).1 =
          .ok { status := 200, success := true, data := { entry := e },
                message := "Payment updated successfully" }) := by
  intro db entryId pay
  cases h : getEntryById db entryId with
  | error err =>
    refine ⟨by simp [updatePayment, h], by simp [updatePayment, h],
      by simp [updatePaymentController, updatePayment, h], ?_⟩
    intro e he
    exact Except.noConfusion he
  | ok e =>
    refine ⟨by simp [updatePayment, h], by simp [updatePayment, h],
      by simp [updatePaymentController, updatePayment, h], ?_⟩
    intro e2 he
    injection he with h2
    subst h2
    simp [updatePaymentController, updatePayment, h]

theorem updatePayment_frame_witness :
    (updatePayment exFullDb "1" {}).2 = exFullDb ∧
    getEntryById exFullDb "1" = .ok (exEntry 1 "c1") ∧
    (updatePaymentController exFullDb "1" {}).1 =
      .ok { status := 200, success := true, data := { entry := exEntry 1 "c1" },
            message := "Payment updated successfully" } :=
  ⟨(updatePayment_frame exFullDb "1" {}).1, rfl,
    (updatePayment_frame exFullDb "1" {}).2.2.2 (exEntry 1 "c1") rfl⟩

/-- Membership in the dedup loop: emitted exactly the elements of the input
not already seen. -/
theorem jsSetDedupAux_mem (x : String) :
    ∀ (l seen : List String), x ∈ jsSetDedupAux seen l ↔ x ∈ l ∧ x ∉ seen := by
  intro l
  induction l with
  | nil => intro seen; simp [jsSetDedupAux]
  | cons y ys ih =>
    intro seen
    by_cases hy : y ∈ seen
    · rw [jsSetDedupAux, if_pos hy, ih seen]
      constructor
      · rintro ⟨h1, h2⟩
        exact ⟨List.mem_cons_of_mem y h1, h2⟩
      · rintro ⟨h1, h2⟩
        rcases List.mem_cons.mp h1 with rfl | h1
        · exact absurd hy h2
        · exact ⟨h1, h2⟩
    · rw [jsSetDedupAux, if_neg hy]
      constructor
      · intro h
        rcases List.mem_cons.mp h with rfl | h
        · exact ⟨List.mem_cons_self x ys, hy⟩
        · have := (ih (y :: seen)).mp h
          refine ⟨List.mem_cons_of_mem y this.1, fun hs => this.2 (List.mem_cons_of_mem y hs)⟩
      · rintro ⟨h1, h2⟩
        rcases List.mem_cons.mp h1 with rfl | h1
        · exact List.mem_cons_self x _
        · by_cases hxy : x = y
          · exact hxy ▸ List.mem_cons_self x _
          · refine List.mem_cons_of_mem y ((ih (y :: seen)).mpr ⟨h1, ?_⟩)
            intro hs
            rcases List.mem_cons.mp hs with h | h
            · exact hxy h
            · exact h2 h

/-- Membership through `jsSetDedup` is membership in the input. -/
theorem jsSetDedup_mem (x : String) (l : List String) :
    x ∈ jsSetDedup l ↔ x ∈ l := by
  rw [jsSetDedup, jsSetDedupAux_mem]
  simp

/-- The dedup loop emits no duplicates. -/
theorem jsSetDedupAux_nodup : ∀ (l seen : List String), (jsSetDedupAux seen l).Nodup := by
  intro l
  induction l with
  | nil => intro seen; simp [jsSetDedupAux]
  | cons y ys ih =>
    intro seen
    by_cases hy : y ∈ seen
    · rw [jsSetDedupAux, if_pos hy]
      exact ih seen
    · rw [jsSetDedupAux, if_neg hy]
      refine List.nodup_cons.mpr ⟨?_, ih (y :: seen)⟩
      intro hmem
      exact ((jsSetDedupAux_mem y ys (y :: seen)).mp hmem).2 (List.mem_cons_self y seen)

/-- `jsSetDedup` produces a duplicate-free list. -/
theorem jsSetDedup_nodup (l : List String) : (jsSetDedup l).Nodup :=
  jsSetDedupAux_nodup l []

/-- C4 counterexample: a company with six Inward invoices of which only the
oldest is unpaid.  The company has a non-fully-paid Inward invoice, yet the
modal offers no append option, because `checkExistingInvoice` inspects only
the five most recent invoices (`limit: 5`). -/
theorem append_option_counterexample :
    (∃ inv ∈ exInvoices, inv.companyId = some "c1" ∧ inv.ty = "Inward" ∧
      inv.status ≠ "paid") ∧
    checkExistingInvoice exInvoices "Inward" "c1" = none :=
  ⟨⟨exInvoice 1 "pending", by decide⟩, by decide⟩

/-- C4 (amended): the append option is offered exactly when one of the at
most five most recent Inward invoices fetched for the company is not fully
paid; on confirmation the form merges the existing invoice's materials,
manifest numbers and entry links with the newly selected ones, and the
displayed subtotal is recomputed from the merged materials. -/
theorem append_merge_amended :
    (∀ (invs : List Invoice) (companyId : String), companyId ≠ "" →
      ((checkExistingInvoice invs "Inward" companyId).isSome = true ↔
        ∃ inv ∈ getInvoices invs companyId "Inward" 5, inv.status ≠ "paid")) ∧
    (∀ (full : Invoice) (prev : InvoiceForm),
      (handleAppendConfirm full prev).materials =
        full.invoiceMaterials.map mapExistingMaterial ++ prev.materials ∧
      (∀ x, x ∈ (handleAppendConfirm full prev).manifestNos ↔
        x ∈ full.invoiceManifests ∨ x ∈ prev.manifestNos) ∧
      (∀ x, x ∈ (handleAppendConfirm full prev).inwardEntryIds ↔
        x ∈ full.inwardEntries ∨ x ∈ prev.inwardEntryIds)) ∧
    (∀ (full : Invoice) (prev : InvoiceForm),
      sumAmounts (handleAppendConfirm full prev).materials ≠ 0 →
      formSubtotal (handleAppendConfirm full prev) =
        sumAmounts (full.invoiceMaterials.map mapExistingMaterial ++ prev.materials)) := by
  refine ⟨?_, ?_, ?_⟩
  · intro invs companyId hcid
    rw [checkExistingInvoice, if_pos (by simp [hcid]), List.find?_isSome]
    constructor
    · rintro ⟨inv, hmem, hp⟩
      exact ⟨inv, hmem, by simpa using hp⟩
    · rintro ⟨inv, hmem, hp⟩
      exact ⟨inv, hmem, by simpa using hp⟩
  · intro full prev
    refine ⟨rfl, ?_, ?_⟩
    · intro x
      show x ∈ jsSetDedup (full.invoiceManifests ++ prev.manifestNos) ↔ _
      rw [jsSetDedup_mem, List.mem_append]
    · intro x
      show x ∈ jsSetDedup (full.inwardEntries ++ prev.inwardEntryIds) ↔ _
      rw [jsSetDedup_mem, List.mem_append]
  · intro full prev h
    rw [formSubtotal, if_neg (by simpa using h)]
    rfl

theorem append_merge_amended_witness :
    ("c1" : String) ≠ "" ∧
    (checkExistingInvoice exInvoices2 "Inward" "c1").isSome = true ∧
    sumAmounts (handleAppendConfirm exFullInvoice exPrevForm).materials ≠ 0 ∧
    formSubtotal (handleAppendConfirm exFullInvoice exPrevForm) =
      sumAmounts (exFullInvoice.invoiceMaterials.map mapExistingMaterial
        ++ exPrevForm.materials) :=
  ⟨by decide,
    (append_merge_amended.1 exInvoices2 "c1" (by decide)).mpr
      ⟨exInvoice 1 "pending", by decide, by decide⟩,
    by norm_num [sumAmounts, handleAppendConfirm, mapExistingMaterial,
      exFullInvoice, exPrevForm, exInvoice],
    append_merge_amended.2.2 exFullInvoice exPrevForm
      (by norm_num [sumAmounts, handleAppendConfirm, mapExistingMaterial,
        exFullInvoice, exPrevForm, exInvoice])⟩

/-- The toggle preserves a duplicate-free entry-id list; on check the UI
guarantees the id was not yet selected. -/
theorem toggle_ids_nodup (f : InvoiceForm) (e : InwardEntry) (b : Bool)
    (h : f.inwardEntryIds.Nodup) (hb : b = true → e.id ∉ f.inwardEntryIds) :
    (toggleEntry f e b).inwardEntryIds.Nodup := by
  cases b with
  | false =>
    simp only [toggleEntry, Bool.false_eq_true, if_false]
    exact h.filter _
  | true =>
    have hmem := hb rfl
    simp only [toggleEntry, if_true]
    simp [List.nodup_append, h, hmem]

/-- The toggle preserves a duplicate-free manifest list. -/
theorem toggle_manifests_nodup (f : InvoiceForm) (e : InwardEntry) (b : Bool)
    (h : f.manifestNos.Nodup) : (toggleEntry f e b).manifestNos.Nodup := by
  cases b with
  | false =>
    simp only [toggleEntry, Bool.false_eq_true, if_false]
    split
    · exact h
    · exact h.filter _
  | true =>
    simp only [toggleEntry, if_true]
    split
    · next hcond =>
      have hnm : e.manifestNo ∉ f.manifestNos := by
        simp only [Bool.and_eq_true] at hcond
        simpa using hcond.2
      simp [List.nodup_append, h, hnm]
    · exact h

/-- A user click preserves a duplicate-free entry-id list. -/
theorem click_ids_nodup (f : InvoiceForm) (e : InwardEntry)
    (h : f.inwardEntryIds.Nodup) : (clickEntry f e).inwardEntryIds.Nodup := by
  unfold clickEntry
  cases hc : f.inwardEntryIds.contains e.id with
  | true =>
    exact toggle_ids_nodup f e false h (fun hfalse => nomatch hfalse)
  | false =>
    exact toggle_ids_nodup f e true h (fun _ => by simpa using hc)

/-- A user click preserves a duplicate-free manifest list. -/
theorem click_manifests_nodup (f : InvoiceForm) (e : InwardEntry)
    (h : f.manifestNos.Nodup) : (clickEntry f e).manifestNos.Nodup := by
  unfold clickEntry
  cases f.inwardEntryIds.contains e.id with
  | true => exact toggle_manifests_nodup f e false h
  | false => exact toggle_manifests_nodup f e true h

/-- C5: the append/merge never double-counts.  After merging an existing
invoice into the form the `inwardEntryIds` and `manifestNos` lists are
duplicate-free; a subsequent checkbox click keeps them duplicate-free; and
the append-mode submission payload has a duplicate-free manifest list
unconditionally and passes the (duplicate-free) entry-id list through. -/
theorem append_merge_no_duplicates :
    (∀ (full : Invoice) (prev : InvoiceForm),
      (handleAppendConfirm full prev).inwardEntryIds.Nodup ∧
      (handleAppendConfirm full prev).manifestNos.Nodup) ∧
    (∀ (f : InvoiceForm) (e : InwardEntry),
      f.inwardEntryIds.Nodup → (clickEntry f e).inwardEntryIds.Nodup) ∧
    (∀ (f : InvoiceForm) (e : InwardEntry),
      f.manifestNos.Nodup → (clickEntry f e).manifestNos.Nodup) ∧
    (∀ (f : InvoiceForm) (b : Bool) (amt : Rat) (d : String),
      (buildUpdatePayload f b amt d).manifestNos.Nodup ∧
      (f.inwardEntryIds.Nodup → (buildUpdatePayload f b amt d).inwardEntryIds.Nodup)) :=
  ⟨fun _ _ => ⟨jsSetDedup_nodup _, jsSetDedup_nodup _⟩,
    click_ids_nodup,
    click_manifests_nodup,
    fun _ _ _ _ => ⟨jsSetDedup_nodup _, fun h => h⟩⟩

theorem append_merge_no_duplicates_witness :
    (handleAppendConfirm exFullInvoice exPrevForm).inwardEntryIds.Nodup ∧
    exPrevForm.inwardEntryIds.Nodup ∧
    (buildUpdatePayload exPrevForm true 5 "2025-06-01").inwardEntryIds.Nodup :=
  ⟨(append_merge_no_duplicates.1 exFullInvoice exPrevForm).1, by decide,
    (append_merge_no_duplicates.2.2.2 exPrevForm true 5 "2025-06-01").2 (by decide)⟩

/-- C9: an entry links to at most one invoice.  The checkbox of an inward
entry is disabled exactly when the entry is invoiced and not linked to the
invoice currently being appended to; clicks on disabled entries change
nothing; the outward picker lists only entries with no `invoiceId`; and a
click preserves the invariant that every selected id belongs to an entry
that is uninvoiced or linked to the current invoice, so no submission links
an already-invoiced entry to a second invoice. -/
theorem entry_single_invoice_gating :
    (∀ (am : Bool) (ex : Option Invoice) (e : InwardEntry),
      isDisabledEntry am ex e = true ↔
        (e.invoiceId.isSome = true ∧
          ¬(am = true ∧ ∃ inv, ex = some inv ∧ e.invoiceId = some inv.id))) ∧
    (∀ (am : Bool) (ex : Option Invoice) (f : InvoiceForm) (e : InwardEntry),
      isDisabledEntry am ex e = true → uiClick am ex f e = f) ∧
    (∀ (l : List OutwardEntry), ∀ e ∈ outwardOptions l, e.invoiceId = none) ∧
    (∀ (am : Bool) (ex : Option Invoice) (f : InvoiceForm) (e : InwardEntry)
        (entries : List InwardEntry),
      e ∈ entries →
      (∀ x ∈ f.inwardEntryIds, ∃ e2 ∈ entries, e2.id = x ∧
        (e2.invoiceId = none ∨ isLinkedToCurrent am ex e2 = true)) →
      (∀ x ∈ (uiClick am ex f e).inwardEntryIds, ∃ e2 ∈ entries, e2.id = x ∧
        (e2.invoiceId = none ∨ isLinkedToCurrent am ex e2 = true))) := by
  refine ⟨?_, ?_, ?_, ?_⟩
  · intro am ex e
    cases ex with
    | none => cases am <;> simp [isDisabledEntry, isLinkedToCurrent]
    | some inv =>
      cases am with
      | false => simp [isDisabledEntry, isLinkedToCurrent]
      | true =>
        cases hinv2 : e.invoiceId with
        | none => simp [isDisabledEntry, isLinkedToCurrent, hinv2]
        | some v => simp [isDisabledEntry, isLinkedToCurrent, hinv2]
  · intro am ex f e h
    rw [uiClick, if_pos h]
  · intro l e he
    simp only [outwardOptions] at he
    have h2 := (List.mem_filter.mp he).2
    simpa using h2
  · intro am ex f e entries hmem hinv x hx
    by_cases hd : isDisabledEntry am ex e = true
    · rw [uiClick, if_pos hd] at hx
      exact hinv x hx
    · rw [uiClick, if_neg hd] at hx
      have hfd : isDisabledEntry am ex e = false := by simpa using hd
      have hdis : e.invoiceId = none ∨ isLinkedToCurrent am ex e = true := by
        cases hinvId : e.invoiceId with
        | none => exact Or.inl rfl
        | some v =>
          right
          simp only [isDisabledEntry, hinvId, Option.isSome_some, Bool.true_and,
            Bool.not_eq_false'] at hfd
          exact hfd
      unfold clickEntry at hx
      cases hc : f.inwardEntryIds.contains e.id with
      | true =>
        rw [hc] at hx
        simp only [Bool.not_true, toggleEntry, Bool.false_eq_true, if_false] at hx
        have hx2 : x ∈ f.inwardEntryIds := (List.mem_filter.mp hx).1
        exact hinv x hx2
      | false =>
        rw [hc] at hx
        simp only [Bool.not_false, toggleEntry, if_true, List.mem_append,
          List.mem_singleton] at hx
        rcases hx with hx | rfl
        · exact hinv x hx
        · exact ⟨e, hmem, rfl, hdis⟩

theorem entry_single_invoice_gating_witness :
    isDisabledEntry false none exLinkedEntry = true ∧
    uiClick false none exPrevForm exLinkedEntry = exPrevForm :=
  ⟨by decide,
    entry_single_invoice_gating.2.1 false none exPrevForm exLinkedEntry (by decide)⟩

/-- C8: role-based field stripping is complete for material rates.  For a
non-admin role the three company responses carry no rate in any material;
for an admin the data is returned unmodified; and the non-admin run equals
the admin run with exactly the rate field of every material removed
(`stripRate` preserves every other field). -/
theorem role_rate_stripping :
    (∀ (role : String) (cs : List Company), role ≠ "admin" →
      ∀ c ∈ getAllCompaniesResp role cs, ∀ ms, c.materials = some ms →
        ∀ m ∈ ms, m.rate = none) ∧
    (∀ cs : List Company, getAllCompaniesResp "admin" cs = cs) ∧
    (∀ (role : String) (c : Company), role ≠ "admin" →
      ∀ ms, (getCompanyByIdResp role c).materials = some ms →
        ∀ m ∈ ms, m.rate = none) ∧
    (∀ c : Company, getCompanyByIdResp "admin" c = c) ∧
    (∀ (role : String) (ms : List CoMaterial), role ≠ "admin" →
      ∀ m ∈ getCompanyMaterialsResp role ms, m.rate = none) ∧
    (∀ ms : List CoMaterial, getCompanyMaterialsResp "admin" ms = ms) ∧
    (∀ (role : String) (cs : List Company), role ≠ "admin" →
      getAllCompaniesResp role cs =
        (getAllCompaniesResp "admin" cs).map stripCompanyRates) ∧
    (∀ (role : String) (ms : List CoMaterial), role ≠ "admin" →
      getCompanyMaterialsResp role ms =
        (getCompanyMaterialsResp "admin" ms).map stripRate) ∧
    (∀ m : CoMaterial, (stripRate m).id = m.id ∧
      (stripRate m).materialName = m.materialName ∧
      (stripRate m).unit = m.unit ∧ (stripRate m).description = m.description) := by
  refine ⟨?_, ?_, ?_, ?_, ?_, ?_, ?_, ?_, ?_⟩
  · intro role cs hrole c hc ms hms m hm
    have hra : (role == "admin") = false := beq_eq_false_iff_ne.mpr hrole
    obtain ⟨c0, _, rfl⟩ := List.mem_map.mp hc
    by_cases hmat : c0.materials.isNone = true
    · rw [if_pos (by simp [hmat])] at hms
      rw [hms] at hmat
      simp at hmat
    · rw [if_neg (by simp [hra, hmat])] at hms
      have hms2 : c0.materials.map (fun ms => ms.map stripRate) = some ms := hms
      cases hmm : c0.materials with
      | none => rw [hmm] at hms2; simp at hms2
      | some ms0 =>
        rw [hmm] at hms2
        simp only [Option.map_some', Option.some.injEq] at hms2
        subst hms2
        obtain ⟨m0, _, rfl⟩ := List.mem_map.mp hm
        rfl
  · intro cs
    simp [getAllCompaniesResp]
  · intro role c hrole ms hms m hm
    have hra : (role != "admin") = true := bne_iff_ne.mpr hrole
    unfold getCompanyByIdResp at hms
    by_cases hmat : c.materials.isSome = true
    · rw [if_pos (by simp [hra, hmat])] at hms
      have hms2 : c.materials.map (fun ms => ms.map stripRate) = some ms := hms
      cases hmm : c.materials with
      | none => rw [hmm] at hms2; simp at hms2
      | some ms0 =>
        rw [hmm] at hms2
        simp only [Option.map_some', Option.some.injEq] at hms2
        subst hms2
        obtain ⟨m0, _, rfl⟩ := List.mem_map.mp hm
        rfl
    · rw [if_neg (by simp [hmat])] at hms
      exact absurd (by simp [hms]) hmat
  · intro c
    simp [getCompanyByIdResp]
  · intro role ms hrole m hm
    have hra : (role == "admin") = false := beq_eq_false_iff_ne.mpr hrole
    simp only [getCompanyMaterialsResp, hra, Bool.false_eq_true, if_false] at hm
    obtain ⟨m0, _, rfl⟩ := List.mem_map.mp hm
    rfl
  · intro ms
    simp [getCompanyMaterialsResp]
  · intro role cs hrole
    have hra : (role == "admin") = false := beq_eq_false_iff_ne.mpr hrole
    have hadmin : getAllCompaniesResp "admin" cs = cs := by simp [getAllCompaniesResp]
    rw [hadmin]
    unfold getAllCompaniesResp stripCompanyRates
    apply List.map_congr_left
    intro a _
    simp [hra]
  · intro role ms hrole
    have hra : (role == "admin") = false := beq_eq_false_iff_ne.mpr hrole
    have hadmin : getCompanyMaterialsResp "admin" ms = ms := by
      simp [getCompanyMaterialsResp]
    rw [hadmin]
    unfold getCompanyMaterialsResp
    apply List.map_congr_left
    intro a _
    simp [hra]
  · intro m
    exact ⟨rfl, rfl, rfl, rfl⟩

theorem role_rate_stripping_witness :
    ("user" : String) ≠ "admin" ∧
    getAllCompaniesResp "user" exCompanies = exStrippedCompanies ∧
    getAllCompaniesResp "user" exCompanies =
      (getAllCompaniesResp "admin" exCompanies).map stripCompanyRates :=
  ⟨by decide, rfl,
    role_rate_stripping.2.2.2.2.2.2.1 "user" exCompanies (by decide)⟩
